import Mathlib

/-!
Shallow embedding of the Authentication and Signed-Payload Trust subsystem of
the go-iap App Store server API client (`appstore/api/store.go`), together
with proofs of the specification claims about it.

External collaborators that live outside `store.go` (the `Cert` helper with
`extractCertByIndex` and `verifyCert`, the `x509` and `jwt` libraries, the
HTTP transport) are modelled as abstract function-valued records, so every
theorem quantifies over their behavior.  The `Token` issuer, whose
implementation file is absent, is modelled from the spec (section 4.2).
-/

/-- Go `error` values are modelled as strings (the message). -/
abbrev Err := String

/-- Go `[]byte` is modelled as a list of byte values. -/
abbrev Bytes := List Nat

/-- Public key carried by a parsed certificate.  The Go code performs a type
assertion to `*ecdsa.PublicKey`; we model the dynamic type as a sum:
`ecdsa k` is an elliptic-curve key with abstract key material `k`, `other k`
is a key of any non-ECDSA dynamic type. -/
inductive PublicKey where
  | ecdsa (k : Nat)
  | other (k : Nat)
deriving DecidableEq, Repr

/-- Parsed X.509 certificate (`x509.Certificate`): only the fields the core
reads are modelled, namely the public key, plus the raw DER bytes. -/
structure Certificate where
  publicKey : PublicKey
  raw : Bytes
deriving DecidableEq, Repr

/-- Decoded claims of a signed transaction payload (`JWSTransaction`).  The
struct declaration is not part of `store.go`; the core only passes the decoded
record through, so it is modelled as an abstract record with one field. -/
structure JWSTransaction where
  transactionId : String
deriving DecidableEq, Repr

/-- The `Cert` collaborator of `StoreClient`.  Its method bodies
(`extractCertByIndex`, `verifyCert`) are outside `store.go`, so they are
modelled as abstract functions: `extractCertByIndex payload i` yields the
DER bytes of the certificate at index `i` of the x5c chain embedded in
`payload`, or an error; `verifyCert root intermediate leaf` returns `none`
on successful chain validation and `some e` on failure. -/
structure Cert where
  extractCertByIndex : String → Nat → Except Err Bytes
  verifyCert : Certificate → Certificate → Certificate → Option Err

/-- Modelled from the spec: the Token issuer state (`CachedToken`), since the
`Token` implementation file is not under the sources.  `cached` holds the
single live `{token string, expiry instant}` pair, `keyOk` records whether the
signing key is usable (a signing attempt with an unusable key fails). -/
structure TokenState where
  keyOk : Bool
  cached : Option (String × Nat)

/-- Modelled from the spec: an abstract injective encoding of the issuance
instant into the signed compact token string (distinct issuance instants give
distinct header-claims-signature strings). -/
def mkTokenString (iat : Nat) : String :=
  String.mk (List.replicate iat 'x')

/-- Modelled from the spec: the fixed safety margin (seconds) subtracted from
the cached token expiry (spec section 4.2, recommended 60 seconds). -/
def safetyMargin : Nat := 60

/-- Modelled from the spec: the bounded token lifetime (seconds); the spec
recommends a default of 20 minutes. -/
def tokenLifetime : Nat := 1200

/-- Modelled from the spec: `Token.GenerateIfExpired` (section 4.2).  If a
cached token exists and its expiry minus the safety margin is still in the
future, return the cached string with no new signing operation and unchanged
state; otherwise sign a fresh token with expiry `now + tokenLifetime` and
replace the cache wholesale.  Signing fails when the key is unusable. -/
def TokenState.generateIfExpired (now : Nat) (t : TokenState) :
    Except Err (String × TokenState) :=
  match t.cached with
  | some (s, exp) =>
    if now < exp - safetyMargin then
      .ok (s, t)
    else if t.keyOk then
      .ok (mkTokenString now,
        { t with cached := some (mkTokenString now, now + tokenLifetime) })
    else
      .error "token signing failed"
  | none =>
    if t.keyOk then
      .ok (mkTokenString now,
        { t with cached := some (mkTokenString now, now + tokenLifetime) })
    else
      .error "token signing failed"

/-- An outbound HTTP request (`http.Request`): method, URL, headers, body. -/
structure Request where
  method : String
  url : String
  headers : List (String × String)
  body : Option String
deriving DecidableEq, Repr

/-- An HTTP response as the core consumes it: the status code and the result
of reading the response body (`io.ReadAll` may fail). -/
structure HTTPResponse where
  statusCode : Nat
  bodyRead : Except Err Bytes

/-- The App Store server API client (`StoreClient`): the token issuer state,
the HTTP transport collaborator and the certificate helper. -/
structure StoreClient where
  Token : TokenState
  httpCli : Request → Except Err HTTPResponse
  cert : Cert

/-- External library behavior the core calls into: `x509.ParseCertificate`
and `jwt.ParseWithClaims` (the latter applied to the ECDSA key material the
keyfunc returns, yielding the decoded claims on successful signature
verification), plus `http.NewRequest`. -/
structure Env where
  parseCertificate : Bytes → Except Err Certificate
  jwtParseWithClaims : String → Nat → Except Err JWSTransaction
  newRequest : String → String → Option String → Except Err Request

/-- Embedding of `(*StoreClient).parseSignedTransaction` (store.go lines
336-382), in state-passing style: the method threads its receiver through
unchanged.  It extracts chain entries 2, 1, 0, parses each as an X.509
certificate (replacing parse errors by fixed messages), validates the chain,
asserts the leaf public key is ECDSA, and verifies and decodes the payload
with that key. -/
def StoreClient.parseSignedTransaction (env : Env) (a : StoreClient)
    (transaction : String) : Except Err JWSTransaction × StoreClient :=
  match a.cert.extractCertByIndex transaction 2 with
  | .error e => (.error e, a)
  | .ok rootCertBytes =>
    match env.parseCertificate rootCertBytes with
    | .error _ => (.error "appstore failed to parse root certificate", a)
    | .ok rootCert =>
      match a.cert.extractCertByIndex transaction 1 with
      | .error e => (.error e, a)
      | .ok intermediaCertBytes =>
        match env.parseCertificate intermediaCertBytes with
        | .error _ =>
          (.error "appstore failed to parse intermediate certificate", a)
        | .ok intermediaCert =>
          match a.cert.extractCertByIndex transaction 0 with
          | .error e => (.error e, a)
          | .ok leafCertBytes =>
            match env.parseCertificate leafCertBytes with
            | .error _ =>
              (.error "appstore failed to parse leaf certificate", a)
            | .ok leafCert =>
              match a.cert.verifyCert rootCert intermediaCert leafCert with
              | some e => (.error e, a)
              | none =>
                match leafCert.publicKey with
                | PublicKey.other _ =>
                  (.error "appstore public key must be of type ecdsa.PublicKey", a)
                | PublicKey.ecdsa pk =>
                  match env.jwtParseWithClaims transaction pk with
                  | .error e => (.error e, a)
                  | .ok tran => (.ok tran, a)

/-- One step of the loop body of `ParseSignedTransactions`: parse the entry
and append the decoded transaction to the accumulator when parsing succeeded
(the Go code appends when `err == nil && trans != nil`). -/
def parseStep (env : Env) (st : List JWSTransaction × StoreClient)
    (v : String) : List JWSTransaction × StoreClient :=
  match st.2.parseSignedTransaction env v with
  | (.ok tr, a2) => (st.1 ++ [tr], a2)
  | (.error _, a2) => (st.1, a2)

/-- Embedding of `(*StoreClient).ParseSignedTransactions` (store.go lines
324-334).  The result slice is `make(...)`-allocated, hence non-nil, modelled
as `some` of the list; the error return is `nil` on every path, modelled as
`none`. -/
def StoreClient.ParseSignedTransactions (env : Env) (a : StoreClient)
    (transactions : List String) :
    (Option (List JWSTransaction) × Option Err) × StoreClient :=
  let st := transactions.foldl (parseStep env) ([], a)
  ((some st.1, none), st.2)

/-- Result triple of `Do`: status code, optional body bytes (nil on error
paths), optional error (nil on success), mirroring Go `(int, []byte, error)`. -/
structure DoResult where
  statusCode : Nat
  body : Option Bytes
  err : Option Err
deriving Repr

/-- Header update as performed by `req.Header.Set`: replace every existing
value of the key with the single new value. -/
def setHeader (hs : List (String × String)) (k v : String) :
    List (String × String) :=
  hs.filter (fun p => p.1 ≠ k) ++ [(k, v)]

/-- Embedding of `(*StoreClient).Do` (store.go lines 385-413), in
state-passing style with the current instant `now` made explicit and
additionally returning the list of requests handed to the HTTP transport
(empty or a singleton), so that claims about what reaches the wire are
statable.  Token generation happens first; on its failure no request is
built or issued.  The request carries Content-Type, Authorization
(`Bearer` plus the token) and User-Agent headers. -/
def StoreClient.Do (env : Env) (now : Nat) (a : StoreClient)
    (method url : String) (body : Option String) :
    DoResult × StoreClient × List Request :=
  match a.Token.generateIfExpired now with
  | .error e =>
    (⟨0, none, some ("appstore generate token err " ++ e)⟩, a, [])
  | .ok (authToken, tok2) =>
    let a2 : StoreClient := { a with Token := tok2 }
    match env.newRequest method url body with
    | .error e =>
      (⟨0, none, some ("appstore new http request err " ++ e)⟩, a2, [])
    | .ok req0 =>
      let h1 := setHeader req0.headers "Content-Type" "application/json"
      let h2 := setHeader h1 "Authorization" ("Bearer " ++ authToken)
      let h3 := setHeader h2 "User-Agent" "App Store Client"
      let req : Request := { req0 with headers := h3 }
      match a2.httpCli req with
      | .error e =>
        (⟨0, none, some ("appstore http client do err " ++ e)⟩, a2, [req])
      | .ok resp =>
        match resp.bodyRead with
        | .error e =>
          (⟨resp.statusCode, none,
              some ("appstore read http body err " ++ e)⟩, a2, [req])
        | .ok bs => (⟨resp.statusCode, some bs, none⟩, a2, [req])

/-- Query values (`url.Values`) as an association list of key-value pairs. -/
abbrev Query := List (String × String)

/-- Update as performed by `query.Set`: replace every value of the key. -/
def Query.set (q : Query) (k v : String) : Query :=
  q.filter (fun p => p.1 ≠ k) ++ [(k, v)]

/-- Decoded transaction-history page (`HistoryResponse`).  The struct
declaration is outside `store.go`; the loop reads `HasMore` and `Revision`
and hands the rest through, modelled by `signedTransactions`. -/
structure HistoryResponse where
  HasMore : Bool
  Revision : String
  signedTransactions : List String
deriving DecidableEq, Repr

/-- Outcome of one `a.Do` call plus `json.Unmarshal` inside the
`GetTransactionHistory` loop: either a transport error, or a status code
together with the unmarshal result. -/
abbrev FetchOutcome := Except Err (Nat × Except Err HistoryResponse)

/-- Embedding of the pagination loop of `GetTransactionHistory` (store.go
lines 135-162), fuel-indexed: `fetch n q` is the outcome of the call at
iteration `n` with query `q` (abstracting `a.Do` on the encoded query and the
unmarshal of its body), `acc` the pages appended so far.  `none` means the
fuel ran out with the loop still running.  A transport error, a non-200
status, or an unmarshal error aborts the batch with an error; a page is
appended in order; `HasMore = false` ends the loop; otherwise the `revision`
parameter is set only when the `Revision` string is non-empty, and the loop
reissues the request. -/
def historyLoop (fetch : Nat → Query → FetchOutcome) :
    Nat → Query → List HistoryResponse → Nat →
    Option (Except Err (List HistoryResponse))
  | _, _, _, 0 => none
  | n, query, acc, fuel + 1 =>
    match fetch n query with
    | .error e => some (.error e)
    | .ok (statusCode, parsed) =>
      if statusCode ≠ 200 then
        some (.error "appstore api: return status code")
      else
        match parsed with
        | .error e => some (.error e)
        | .ok rsp =>
          let acc2 := acc ++ [rsp]
          if !rsp.HasMore then
            some (.ok acc2)
          else
            let query2 :=
              if rsp.HasMore && rsp.Revision ≠ "" then
                Query.set query "revision" rsp.Revision
              else query
            historyLoop fetch (n + 1) query2 acc2 fuel

/-- Embedding of `GetTransactionHistory` (store.go lines 124-165) over the
fetch oracle: a `nil` query starts from empty `url.Values`. -/
def GetTransactionHistory (fetch : Nat → Query → FetchOutcome)
    (query : Option Query) (fuel : Nat) :
    Option (Except Err (List HistoryResponse)) :=
  historyLoop fetch 0 (query.getD []) [] fuel

/-- Concrete certificate helper whose chain extraction succeeds (the DER
bytes of entry `i` are modelled as `[i]`) and whose validation accepts. -/
def okCert : Cert where
  extractCertByIndex := fun _ i => .ok [i]
  verifyCert := fun _ _ _ => none

/-- Concrete certificate helper whose chain extraction fails outright. -/
def badCert : Cert where
  extractCertByIndex := fun _ _ => .error "bad chain"
  verifyCert := fun _ _ _ => some "broken"

/-- Concrete certificate helper whose extraction succeeds but whose chain
validation rejects. -/
def untrustedCert : Cert where
  extractCertByIndex := fun _ i => .ok [i]
  verifyCert := fun _ _ _ => some "untrusted root"

/-- Concrete environment: certificates parse to ECDSA-keyed certificates and
signature verification succeeds. -/
def ecdsaEnv : Env where
  parseCertificate := fun b => .ok ⟨PublicKey.ecdsa 7, b⟩
  jwtParseWithClaims := fun _ _ => .ok ⟨"t1"⟩
  newRequest := fun m u b => .ok ⟨m, u, [], b⟩

/-- Concrete environment whose certificates carry a non-ECDSA key. -/
def rsaEnv : Env where
  parseCertificate := fun b => .ok ⟨PublicKey.other 3, b⟩
  jwtParseWithClaims := fun _ _ => .ok ⟨"t1"⟩
  newRequest := fun m u b => .ok ⟨m, u, [], b⟩

/-- Concrete token issuer state with a usable key and an empty cache. -/
def freshToken : TokenState where
  keyOk := true
  cached := none

/-- Concrete HTTP transport that always answers 200 with an empty body. -/
def okHttp : Request → Except Err HTTPResponse :=
  fun _ => .ok ⟨200, .ok []⟩

/-- Concrete client built over `okCert`. -/
def okClient : StoreClient where
  Token := freshToken
  httpCli := okHttp
  cert := okCert

/-- Concrete client built over `badCert`. -/
def badClient : StoreClient where
  Token := freshToken
  httpCli := okHttp
  cert := badCert

/-- Concrete client built over `untrustedCert`. -/
def untrustedClient : StoreClient where
  Token := freshToken
  httpCli := okHttp
  cert := untrustedCert

/-- Concrete token issuer state holding a cached token issued at instant 100
(so expiring at 1300). -/
def cachedToken : TokenState where
  keyOk := true
  cached := some (mkTokenString 100, 1300)

/-- Concrete client whose signing key is unusable, so token generation
fails. -/
def corruptClient : StoreClient where
  Token := ⟨false, none⟩
  httpCli := okHttp
  cert := okCert

/-- Concrete fetch oracle: every call answers 200 with a page that has
`HasMore` true and an empty `Revision`. -/
def hasMoreFetch : Nat → Query → FetchOutcome :=
  fun _ _ => .ok (200, .ok ⟨true, "", []⟩)

/-- Concrete fetch oracle: every call answers 200 with a final page
(`HasMore` false). -/
def lastPageFetch : Nat → Query → FetchOutcome :=
  fun _ _ => .ok (200, .ok ⟨false, "r", []⟩)

/-- Helper: `parseSignedTransaction` threads its receiver back unchanged on
every return path. -/
lemma parse_snd_eq (env : Env) (a : StoreClient) (s : String) :
    (a.parseSignedTransaction env s).2 = a := by
  unfold StoreClient.parseSignedTransaction
  repeat' split
  all_goals rfl

/-- Helper: the pair returned by `parseSignedTransaction` is its first
component together with the unchanged receiver. -/
lemma parse_pair (env : Env) (a : StoreClient) (s : String) :
    a.parseSignedTransaction env s = ((a.parseSignedTransaction env s).1, a) := by
  have h := parse_snd_eq env a s
  cases hp : a.parseSignedTransaction env s with
  | mk r c =>
    rw [hp] at h
    simp only at h
    rw [h]

/-- Helper: one `ParseSignedTransactions` loop step appends the decoded
transaction exactly when the entry parses, and keeps the client. -/
lemma parseStep_eq (env : Env) (a : StoreClient) (acc : List JWSTransaction)
    (v : String) :
    parseStep env (acc, a) v =
      (acc ++ ((a.parseSignedTransaction env v).1.toOption.toList), a) := by
  unfold parseStep
  rw [parse_pair env a v]
  cases (a.parseSignedTransaction env v).1 <;>
    simp [Except.toOption]

/-- Helper: the `ParseSignedTransactions` fold collects, in input order, the
entries whose parse succeeded. -/
lemma foldl_parseStep (env : Env) (a : StoreClient) :
    ∀ (ts : List String) (acc : List JWSTransaction),
      ts.foldl (parseStep env) (acc, a) =
        (acc ++ ts.filterMap (fun v => (a.parseSignedTransaction env v).1.toOption),
          a)
  | [], acc => by simp
  | v :: ts, acc => by
    rw [List.foldl_cons, parseStep_eq env a acc v, foldl_parseStep env a ts]
    cases h : (a.parseSignedTransaction env v).1 <;>
      simp [Except.toOption, h, List.filterMap_cons]

/-- Claim C8: payload verification is stateless with respect to the client: for
every environment, client and payload, `parseSignedTransaction` leaves the
client and each of its fields (`Token`, `cert`, `httpCli`) unchanged, whether
it succeeds or fails. -/
theorem parseSignedTransaction_stateless (env : Env) (a : StoreClient)
    (s : String) :
    (a.parseSignedTransaction env s).2 = a ∧
    (a.parseSignedTransaction env s).2.Token = a.Token ∧
    (a.parseSignedTransaction env s).2.cert = a.cert ∧
    (a.parseSignedTransaction env s).2.httpCli = a.httpCli := by
  have h := parse_snd_eq env a s
  exact ⟨h, by rw [h], by rw [h], by rw [h]⟩

/-- Claim C9: for every input list of payloads (including the empty list),
`ParseSignedTransactions` returns a non-nil slice (`some` list) and a nil
error (`none`), and the result never exceeds the input in length. -/
theorem parseSignedTransactions_total (env : Env) (a : StoreClient)
    (ts : List String) :
    ∃ l : List JWSTransaction,
      (a.ParseSignedTransactions env ts).1 = (some l, none) ∧
      l.length ≤ ts.length := by
  refine ⟨ts.filterMap (fun v => (a.parseSignedTransaction env v).1.toOption),
    ?_, ?_⟩
  · unfold StoreClient.ParseSignedTransactions
    rw [foldl_parseStep env a ts []]
    simp
  · exact List.length_filterMap_le _ _

/-- Helper: once the three chain entries extract and parse, the parse result
is decided by chain validation on (root, intermediate, leaf) and then by the
leaf public key. -/
lemma parse_chain_eq (env : Env) (a : StoreClient) (s : String)
    (rb ib lb : Bytes) (root inter leaf : Certificate)
    (h2 : a.cert.extractCertByIndex s 2 = .ok rb)
    (hp2 : env.parseCertificate rb = .ok root)
    (h1 : a.cert.extractCertByIndex s 1 = .ok ib)
    (hp1 : env.parseCertificate ib = .ok inter)
    (h0 : a.cert.extractCertByIndex s 0 = .ok lb)
    (hp0 : env.parseCertificate lb = .ok leaf) :
    (a.parseSignedTransaction env s).1 =
      match a.cert.verifyCert root inter leaf with
      | some e => .error e
      | none =>
        match leaf.publicKey with
        | PublicKey.ecdsa k => env.jwtParseWithClaims s k
        | PublicKey.other _ =>
          .error "appstore public key must be of type ecdsa.PublicKey" := by
  unfold StoreClient.parseSignedTransaction
  simp only [h2, hp2, h1, hp1, h0, hp0]
  repeat' split
  all_goals simp_all

/-- Claim C1: `parseSignedTransaction` yields decoded claims exactly when every
stage succeeds — chain extraction and parsing, chain validation, the ECDSA
leaf-key assertion, and signature verification with that leaf key — and its
result is always either decoded claims or an explicit error. -/
theorem parseSignedTransaction_ok_iff (env : Env) (a : StoreClient)
    (s : String) (t : JWSTransaction) :
    (((a.parseSignedTransaction env s).1 = .ok t ↔
      ∃ rb root ib inter lb leaf k,
        a.cert.extractCertByIndex s 2 = .ok rb ∧
        env.parseCertificate rb = .ok root ∧
        a.cert.extractCertByIndex s 1 = .ok ib ∧
        env.parseCertificate ib = .ok inter ∧
        a.cert.extractCertByIndex s 0 = .ok lb ∧
        env.parseCertificate lb = .ok leaf ∧
        a.cert.verifyCert root inter leaf = none ∧
        leaf.publicKey = PublicKey.ecdsa k ∧
        env.jwtParseWithClaims s k = .ok t) ∧
     ((∃ t2, (a.parseSignedTransaction env s).1 = .ok t2) ∨
      (∃ e, (a.parseSignedTransaction env s).1 = .error e))) := by
  constructor
  · unfold StoreClient.parseSignedTransaction
    cases h2 : a.cert.extractCertByIndex s 2 with
    | error e => simp [*]
    | ok rb =>
      cases hp2 : env.parseCertificate rb with
      | error e => simp [*]
      | ok root =>
        cases h1 : a.cert.extractCertByIndex s 1 with
        | error e => simp [*]
        | ok ib =>
          cases hp1 : env.parseCertificate ib with
          | error e => simp [*]
          | ok inter =>
            cases h0 : a.cert.extractCertByIndex s 0 with
            | error e => simp [*]
            | ok lb =>
              cases hp0 : env.parseCertificate lb with
              | error e => simp [*]
              | ok leaf =>
                cases hv : a.cert.verifyCert root inter leaf with
                | some e => simp [*]
                | none =>
                  cases hk : leaf.publicKey with
                  | other k => simp [*]
                  | ecdsa k =>
                    cases hj : env.jwtParseWithClaims s k with
                    | error e => simp [*]
                    | ok tr => simp [*]
  · cases (a.parseSignedTransaction env s).1 with
    | error e => exact Or.inr ⟨e, rfl⟩
    | ok t2 => exact Or.inl ⟨t2, rfl⟩

/-- Claim C5: the embedded chain is read leaf-first: index 0 is the leaf, index 1
the intermediate, index 2 the root, and validation runs on exactly these
three certificates in exactly these roles (root, intermediate, leaf), with
the index-0 leaf supplying the signature key. -/
theorem parseSignedTransaction_chain_roles (env : Env) (a : StoreClient)
    (s : String) (rb ib lb : Bytes) (root inter leaf : Certificate)
    (h2 : a.cert.extractCertByIndex s 2 = .ok rb)
    (hp2 : env.parseCertificate rb = .ok root)
    (h1 : a.cert.extractCertByIndex s 1 = .ok ib)
    (hp1 : env.parseCertificate ib = .ok inter)
    (h0 : a.cert.extractCertByIndex s 0 = .ok lb)
    (hp0 : env.parseCertificate lb = .ok leaf) :
    (a.parseSignedTransaction env s).1 =
      match a.cert.verifyCert root inter leaf with
      | some e => .error e
      | none =>
        match leaf.publicKey with
        | PublicKey.ecdsa k => env.jwtParseWithClaims s k
        | PublicKey.other _ =>
          .error "appstore public key must be of type ecdsa.PublicKey" :=
  parse_chain_eq env a s rb ib lb root inter leaf h2 hp2 h1 hp1 h0 hp0

/-- Claim C4: once the chain validates, a non-ECDSA leaf key fails with the
unsupported-key-type error and no claims are produced, while an ECDSA leaf
key is exactly the key the signature verification is run with. -/
theorem parseSignedTransaction_leaf_key (env : Env) (a : StoreClient)
    (s : String) (rb ib lb : Bytes) (root inter leaf : Certificate)
    (h2 : a.cert.extractCertByIndex s 2 = .ok rb)
    (hp2 : env.parseCertificate rb = .ok root)
    (h1 : a.cert.extractCertByIndex s 1 = .ok ib)
    (hp1 : env.parseCertificate ib = .ok inter)
    (h0 : a.cert.extractCertByIndex s 0 = .ok lb)
    (hp0 : env.parseCertificate lb = .ok leaf)
    (hv : a.cert.verifyCert root inter leaf = none) :
    (∀ k, leaf.publicKey = PublicKey.other k →
      (a.parseSignedTransaction env s).1 =
        .error "appstore public key must be of type ecdsa.PublicKey") ∧
    (∀ k, leaf.publicKey = PublicKey.ecdsa k →
      (a.parseSignedTransaction env s).1 = env.jwtParseWithClaims s k) := by
  rw [parse_chain_eq env a s rb ib lb root inter leaf h2 hp2 h1 hp1 h0 hp0]
  constructor
  · intro k hk
    simp [hv, hk]
  · intro k hk
    simp [hv, hk]

/-- Witness for C5 at a concrete client and environment: the parse result is
decided by validating (root, intermediate, leaf) in these roles and then
verifying with the index-0 leaf key, which here succeeds. -/
theorem parseSignedTransaction_chain_roles_witness :
    (okClient.parseSignedTransaction ecdsaEnv "p").1 =
      .ok ⟨"t1"⟩ := by
  have h := parseSignedTransaction_chain_roles ecdsaEnv okClient "p"
    [2] [1] [0] ⟨PublicKey.ecdsa 7, [2]⟩ ⟨PublicKey.ecdsa 7, [1]⟩
    ⟨PublicKey.ecdsa 7, [0]⟩ rfl rfl rfl rfl rfl rfl
  exact h.trans rfl

/-- Witness for C4 at a concrete client whose chain validates but whose leaf
key is not ECDSA: the unsupported-key-type error is returned. -/
theorem parseSignedTransaction_leaf_key_witness :
    (okClient.parseSignedTransaction rsaEnv "p").1 =
      .error "appstore public key must be of type ecdsa.PublicKey" :=
  (parseSignedTransaction_leaf_key rsaEnv okClient "p"
    [2] [1] [0] ⟨PublicKey.other 3, [2]⟩ ⟨PublicKey.other 3, [1]⟩
    ⟨PublicKey.other 3, [0]⟩ rfl rfl rfl rfl rfl rfl rfl).1 3 rfl

/-- Counterexample to C2: a payload whose chain validation fails (and one
whose chain extraction fails) makes `parseSignedTransaction` return an
explicit error, yet the batch operation `ParseSignedTransactions` on that
same single payload returns an empty result with a nil error — an
empty-but-successful outcome for a trust failure, contradicting the claim
for the batch operation. -/
theorem trust_failure_silently_skipped :
    (untrustedClient.parseSignedTransaction ecdsaEnv "p").1 =
      .error "untrusted root" ∧
    (untrustedClient.ParseSignedTransactions ecdsaEnv ["p"]).1 =
      (some [], none) ∧
    (badClient.parseSignedTransaction ecdsaEnv "p").1 = .error "bad chain" ∧
    (badClient.ParseSignedTransactions ecdsaEnv ["p"]).1 = (some [], none) :=
  ⟨rfl, rfl, rfl, rfl⟩

/-- Claim C2 (amended): `parseSignedTransaction` never downgrades a trust failure —
a failed chain validation or a failed signature verification produces an
explicit error value — but the batch operation `ParseSignedTransactions`
always returns a nil error, silently skipping failed entries. -/
theorem trust_failure_explicit (env : Env) (a : StoreClient)
    (s : String) (rb ib lb : Bytes) (root inter leaf : Certificate)
    (h2 : a.cert.extractCertByIndex s 2 = .ok rb)
    (hp2 : env.parseCertificate rb = .ok root)
    (h1 : a.cert.extractCertByIndex s 1 = .ok ib)
    (hp1 : env.parseCertificate ib = .ok inter)
    (h0 : a.cert.extractCertByIndex s 0 = .ok lb)
    (hp0 : env.parseCertificate lb = .ok leaf) :
    (∀ e, a.cert.verifyCert root inter leaf = some e →
      (a.parseSignedTransaction env s).1 = .error e) ∧
    (∀ k e, a.cert.verifyCert root inter leaf = none →
      leaf.publicKey = PublicKey.ecdsa k →
      env.jwtParseWithClaims s k = .error e →
      (a.parseSignedTransaction env s).1 = .error e) ∧
    (∀ ts, (a.ParseSignedTransactions env ts).1.2 = none) := by
  rw [parse_chain_eq env a s rb ib lb root inter leaf h2 hp2 h1 hp1 h0 hp0]
  refine ⟨?_, ?_, ?_⟩
  · intro e hv
    simp [hv]
  · intro k e hv hk hj
    simp [hv, hk, hj]
  · intro ts
    unfold StoreClient.ParseSignedTransactions
    rw [foldl_parseStep env a ts []]

/-- Witness for the amended C2: a concrete chain-validation failure surfaces
as that explicit error from `parseSignedTransaction`, while the batch error
component is nil. -/
theorem trust_failure_explicit_witness :
    (untrustedClient.parseSignedTransaction ecdsaEnv "p").1 =
      .error "untrusted root" ∧
    (untrustedClient.ParseSignedTransactions ecdsaEnv ["p"]).1.2 = none := by
  have h := trust_failure_explicit ecdsaEnv untrustedClient "p"
    [2] [1] [0] ⟨PublicKey.ecdsa 7, [2]⟩ ⟨PublicKey.ecdsa 7, [1]⟩
    ⟨PublicKey.ecdsa 7, [0]⟩ rfl rfl rfl rfl rfl rfl
  exact ⟨h.1 "untrusted root" rfl, h.2.2 ["p"]⟩

/-- Claim C3: `ParseSignedTransactions` processes entries independently: the batch
is never aborted (the error component is always nil), every failing entry is
skipped, and the successfully decoded claims appear in input order — the
result is exactly the in-order `filterMap` of the per-entry successes. -/
theorem parseSignedTransactions_filterMap (env : Env) (a : StoreClient)
    (ts : List String) :
    (a.ParseSignedTransactions env ts).1 =
      (some (ts.filterMap (fun v => (a.parseSignedTransaction env v).1.toOption)),
        none) := by
  unfold StoreClient.ParseSignedTransactions
  rw [foldl_parseStep env a ts []]
  simp

/-- Helper: the token string encoding of the issuance instant is injective. -/
lemma mkTokenString_inj {m n : Nat} (h : mkTokenString m = mkTokenString n) :
    m = n := by
  have hl := congrArg (fun str : String => str.data.length) h
  simpa [mkTokenString] using hl

/-- Claim C6: token issuance is idempotent within the safety margin: with a cached
token whose expiry minus the margin is still in the future, the cached string
comes back with the state unchanged (no new signing); once the cached token
has expired, a different token with a strictly later expiry replaces it. -/
theorem generateIfExpired_idempotent (t : TokenState) (s : String)
    (exp now now2 : Nat)
    (hc : t.cached = some (s, exp))
    (hwf : ∃ iat, s = mkTokenString iat ∧ exp = iat + tokenLifetime) :
    (now < exp - safetyMargin →
      t.generateIfExpired now = .ok (s, t)) ∧
    (exp ≤ now2 → t.keyOk = true →
      ∃ s2, t.generateIfExpired now2 =
          .ok (s2, { t with cached := some (s2, now2 + tokenLifetime) }) ∧
        s2 ≠ s ∧ exp < now2 + tokenLifetime) := by
  have hL : 0 < tokenLifetime := by decide
  constructor
  · intro hlt
    unfold TokenState.generateIfExpired
    rw [hc]
    simp [hlt]
  · intro hle hkey
    obtain ⟨iat, hs, hexp⟩ := hwf
    refine ⟨mkTokenString now2, ?_, ?_, by omega⟩
    · unfold TokenState.generateIfExpired
      rw [hc]
      have hnot : ¬ now2 < exp - safetyMargin := by omega
      simp [hnot, hkey]
    · intro hcontra
      subst hs
      have h2 := mkTokenString_inj hcontra
      omega

/-- Witness for C6: at instant 150 the token cached at instant 100 (expiry
1300) is returned unchanged; at instant 1400, past the expiry, a different
token with a later expiry replaces it. -/
theorem generateIfExpired_idempotent_witness :
    cachedToken.generateIfExpired 150 = .ok (mkTokenString 100, cachedToken) ∧
    (∃ s2, cachedToken.generateIfExpired 1400 =
        .ok (s2, { cachedToken with cached := some (s2, 1400 + tokenLifetime) }) ∧
      s2 ≠ mkTokenString 100 ∧ 1300 < 1400 + tokenLifetime) := by
  have h := generateIfExpired_idempotent cachedToken (mkTokenString 100)
    1300 150 1400 rfl ⟨100, rfl, by decide⟩
  exact ⟨h.1 (by decide), h.2 (by decide) rfl⟩

/-- Helper: the value just set by `setHeader` is a member of the result. -/
lemma mem_setHeader_self (hs : List (String × String)) (k v : String) :
    (k, v) ∈ setHeader hs k v := by
  unfold setHeader
  simp

/-- Helper: `setHeader` under a different key neither adds nor removes
entries of a key. -/
lemma mem_setHeader_of_ne (hs : List (String × String)) (k v k2 v2 : String)
    (hne : k2 ≠ k) :
    ((k2, v2) ∈ setHeader hs k v ↔ (k2, v2) ∈ hs) := by
  unfold setHeader
  simp [List.mem_filter, hne]

/-- Helper: after `setHeader hs k v`, the only value stored at key `k` is
`v`. -/
lemma setHeader_unique (hs : List (String × String)) (k v v2 : String)
    (h : (k, v2) ∈ setHeader hs k v) : v2 = v := by
  unfold setHeader at h
  rcases List.mem_append.1 h with h1 | h1
  · have hp := (List.mem_filter.1 h1).2
    simp at hp
  · simpa using h1

/-- Claim C7: `Do` consumes the current bearer token exactly once: at most one
request reaches the transport, and any request that does carries exactly one
Authorization value, the string `Bearer ` followed by the token; when token
generation fails, no request is issued and the error is returned. -/
theorem do_bearer_once (env : Env) (now : Nat) (a : StoreClient)
    (method url : String) (body : Option String) :
    (∀ e, a.Token.generateIfExpired now = .error e →
      (a.Do env now method url body).2.2 = [] ∧
      (a.Do env now method url body).1.err =
        some ("appstore generate token err " ++ e)) ∧
    (∀ tok ts2, a.Token.generateIfExpired now = .ok (tok, ts2) →
      (a.Do env now method url body).2.2.length ≤ 1 ∧
      ∀ r ∈ (a.Do env now method url body).2.2,
        ("Authorization", "Bearer " ++ tok) ∈ r.headers ∧
        ∀ v2, ("Authorization", v2) ∈ r.headers → v2 = "Bearer " ++ tok) := by
  constructor
  · intro e he
    unfold StoreClient.Do
    simp [he]
  · intro tok ts2 hok
    unfold StoreClient.Do
    simp only [hok]
    have hmem : ∀ hs : List (String × String),
        ("Authorization",
          "Bearer " ++ tok) ∈
            setHeader (setHeader hs "Authorization" ("Bearer " ++ tok))
              "User-Agent" "App Store Client" := by
      intro hs
      exact (mem_setHeader_of_ne _ _ _ _ _ (by decide)).2
        (mem_setHeader_self hs _ _)
    have huniq : ∀ (hs : List (String × String)) v2,
        ("Authorization", v2) ∈
            setHeader (setHeader hs "Authorization" ("Bearer " ++ tok))
              "User-Agent" "App Store Client" →
          v2 = "Bearer " ++ tok := by
      intro hs v2 hv2
      exact setHeader_unique _ _ _ _
        ((mem_setHeader_of_ne _ _ _ _ _ (by decide)).1 hv2)
    repeat' split
    all_goals refine ⟨by simp, ?_⟩
    all_goals intro r hrr
    all_goals simp only [List.mem_singleton, List.not_mem_nil] at hrr
    all_goals subst hrr
    all_goals exact ⟨hmem _, huniq _⟩

/-- Witness for C7: with a usable key the one issued request carries exactly
the bearer token generated at instant 5; with an unusable key no request is
issued and the generation error is surfaced. -/
theorem do_bearer_once_witness :
    ((okClient.Do ecdsaEnv 5 "GET" "u" none).2.2.length ≤ 1 ∧
      ∀ r ∈ (okClient.Do ecdsaEnv 5 "GET" "u" none).2.2,
        ("Authorization", "Bearer " ++ mkTokenString 5) ∈ r.headers ∧
        ∀ v2, ("Authorization", v2) ∈ r.headers →
          v2 = "Bearer " ++ mkTokenString 5) ∧
    ((corruptClient.Do ecdsaEnv 5 "GET" "u" none).2.2 = [] ∧
      (corruptClient.Do ecdsaEnv 5 "GET" "u" none).1.err =
        some ("appstore generate token err " ++ "token signing failed")) := by
  constructor
  · exact (do_bearer_once ecdsaEnv 5 okClient "GET" "u" none).2
      (mkTokenString 5) ⟨true, some (mkTokenString 5, 5 + tokenLifetime)⟩ rfl
  · exact (do_bearer_once ecdsaEnv 5 corruptClient "GET" "u" none).1
      "token signing failed" rfl

/-- Claim C10: the `GetTransactionHistory` pagination loop appends each 200-status
page in order and stops on a page with `HasMore` false; a page with `HasMore`
true and an empty `Revision` makes the next iteration reissue the request
with the query unchanged; and against a response stream that always reports
`HasMore` true, no amount of fuel makes the loop (or `GetTransactionHistory`)
terminate. -/
theorem historyLoop_pagination (fetch : Nat → Query → FetchOutcome) :
    (∀ n q acc fuel rsp, fetch n q = .ok (200, .ok rsp) →
      rsp.HasMore = false →
      historyLoop fetch n q acc (fuel + 1) = some (.ok (acc ++ [rsp]))) ∧
    (∀ n q acc fuel rsp, fetch n q = .ok (200, .ok rsp) →
      rsp.HasMore = true → rsp.Revision = "" →
      historyLoop fetch n q acc (fuel + 1) =
        historyLoop fetch (n + 1) q (acc ++ [rsp]) fuel) ∧
    ((∀ n q, ∃ rsp, fetch n q = .ok (200, .ok rsp) ∧ rsp.HasMore = true) →
      (∀ fuel n q acc, historyLoop fetch n q acc fuel = none) ∧
      ∀ fuel q0, GetTransactionHistory fetch q0 fuel = none) := by
  refine ⟨?_, ?_, ?_⟩
  · intro n q acc fuel rsp hf hm
    simp [historyLoop, hf, hm]
  · intro n q acc fuel rsp hf hm hrev
    simp [historyLoop, hf, hm, hrev]
  · intro h
    have hloop : ∀ fuel n q acc, historyLoop fetch n q acc fuel = none := by
      intro fuel
      induction fuel with
      | zero => intro n q acc; rfl
      | succ f ih =>
        intro n q acc
        obtain ⟨rsp, hf, hm⟩ := h n q
        simp only [historyLoop, hf, hm]
        simpa using ih (n + 1) _ (acc ++ [rsp])
    exact ⟨hloop, fun fuel q0 => hloop fuel 0 (q0.getD []) []⟩

/-- Witness for C10 at concrete fetch oracles: a final page closes the loop
with that page appended; an always-more page with empty revision recurses on
an unchanged query; and an always-more stream exhausts any fuel. -/
theorem historyLoop_pagination_witness :
    historyLoop lastPageFetch 0 [] [] 1 =
      some (.ok [⟨false, "r", []⟩]) ∧
    historyLoop hasMoreFetch 0 [] [] 1 =
      historyLoop hasMoreFetch 1 [] [⟨true, "", []⟩] 0 ∧
    historyLoop hasMoreFetch 0 [] [] 5 = none ∧
    GetTransactionHistory hasMoreFetch none 7 = none := by
  refine ⟨?_, ?_, ?_, ?_⟩
  · exact (historyLoop_pagination lastPageFetch).1 0 [] [] 0 _ rfl rfl
  · exact (historyLoop_pagination hasMoreFetch).2.1 0 [] [] 0 _ rfl rfl rfl
  · exact ((historyLoop_pagination hasMoreFetch).2.2
      (fun n q => ⟨⟨true, "", []⟩, rfl, rfl⟩)).1 5 0 [] []
  · exact ((historyLoop_pagination hasMoreFetch).2.2
      (fun n q => ⟨⟨true, "", []⟩, rfl, rfl⟩)).2 7 none
